import Mathlib

/-!
  Verification of the PMCrypto node (a naivecoin-style proof-of-work
  cryptocurrency) against its natural-language specification.

  The JavaScript sources are shallowly embedded: JS numbers that hold
  integers become `Int`, strings become `String`, arrays become `List`,
  and a thrown exception (a `TypeError` from reading a property of
  `undefined`, or an explicit `throw`) is an `Except.error ()` or an
  `Option.none`, as noted at each definition. The two cryptographic
  primitives — SHA-256 (`CryptoJS.SHA256(s).toString()`) and ECDSA
  signature verification (`ec.keyFromPublic(address).verify(message,
  signature)`) — are abstracted as total function parameters `hash :
  String → String` and `verify : String → String → String → Bool`
  (address, message, signature); every theorem quantifies over them or
  instantiates them concretely.
-/

namespace PMCrypto

/-! ## Data model (transaction.js, blockchain.js) -/

/-- A transaction output: `address` is an ECDSA public key, `amount` the
coins locked to it. -/
structure TxOut where
  address : String
  amount : Int
deriving DecidableEq

/-- A transaction input, referencing the unspent output being consumed. -/
structure TxIn where
  txOutId : String
  txOutIndex : Int
  signature : String
deriving DecidableEq

/-- A transaction: `id` is the hash of its input references and outputs. -/
structure Transaction where
  id : String
  txIns : List TxIn
  txOuts : List TxOut
deriving DecidableEq

/-- An unspent transaction output, keyed by the producing transaction and
the output position. -/
structure UnspentTxOut where
  txOutId : String
  txOutIndex : Int
  address : String
  amount : Int
deriving DecidableEq

/-- A block of the chain. Field order follows the source constructor
assignments: index, previousHash, timestamp, data, hash, difficulty,
nonce. -/
structure Block where
  index : Int
  previousHash : String
  timestamp : Int
  data : List Transaction
  hash : String
  difficulty : Int
  nonce : Int
deriving DecidableEq

/-- JS array indexing `l[i]` with a possibly negative index; `none` models
the `undefined` result (whose property reads then throw). -/
def jsIndex (l : List α) (i : Int) : Option α :=
  if i < 0 then none else l.get? i.toNat

/-! ## Transaction engine (transaction.js) -/

section TransactionEngine

variable (hash : String → String) (verify : String → String → String → Bool)

/-- COINBASE_AMOUNT from transaction.js. -/
def COINBASE_AMOUNT : Int := 50

/-- getTransactionId: hash of the concatenated input references
(txOutId + txOutIndex) and outputs (address + amount); signatures are
excluded from the pre-image. -/
def getTransactionId (t : Transaction) : String :=
  let txInContent :=
    (t.txIns.map (fun txIn => txIn.txOutId ++ toString txIn.txOutIndex)).foldl (· ++ ·) ""
  let txOutContent :=
    (t.txOuts.map (fun txOut => txOut.address ++ toString txOut.amount)).foldl (· ++ ·) ""
  hash (txInContent ++ txOutContent)

/-- validateTxIn. The source predicate tests
`uTxO.txOutId === txIn.txOutId && uTxO.txOutId === txIn.txOutId` — the
same condition twice, never `txOutIndex`; the embedding keeps that
faithfully. The signature is verified under the address of the first
UTXO whose `txOutId` matches. -/
def validateTxIn (txIn : TxIn) (t : Transaction) (aUnspentTxOuts : List UnspentTxOut) : Bool :=
  match aUnspentTxOuts.find? (fun uTxO =>
      uTxO.txOutId == txIn.txOutId && uTxO.txOutId == txIn.txOutId) with
  | none => false
  | some referencedUTxOut => verify referencedUTxOut.address t.id txIn.signature

/-- findUnspentTxOut: lookup by the full (txOutId, txOutIndex) pair. -/
def findUnspentTxOut (transactionId : String) (index : Int)
    (aUnspentTxOuts : List UnspentTxOut) : Option UnspentTxOut :=
  aUnspentTxOuts.find? (fun uTxO => uTxO.txOutId == transactionId && uTxO.txOutIndex == index)

/-- getTxInAmount reads `.amount` of the `findUnspentTxOut` result; when
the lookup finds nothing the JS read throws a TypeError, modelled as
`none`. -/
def getTxInAmount (txIn : TxIn) (aUnspentTxOuts : List UnspentTxOut) : Option Int :=
  (findUnspentTxOut txIn.txOutId txIn.txOutIndex aUnspentTxOuts).map (fun u => u.amount)

/-- validateTransaction. `Except.error ()` models the TypeError thrown
inside the input-amount summation when some input has no
(txOutId, txOutIndex) match. -/
def validateTransaction (t : Transaction) (aUnspentTxOuts : List UnspentTxOut) :
    Except Unit Bool :=
  if getTransactionId hash t ≠ t.id then .ok false
  else if ¬ (t.txIns.all (fun txIn => validateTxIn verify txIn t aUnspentTxOuts)) then .ok false
  else
    match t.txIns.mapM (fun txIn => getTxInAmount txIn aUnspentTxOuts) with
    | none => .error ()
    | some amounts =>
      let totalTxInValues := amounts.foldl (· + ·) 0
      let totalTxOutValues := (t.txOuts.map (fun txOut => txOut.amount)).foldl (· + ·) 0
      .ok (totalTxOutValues == totalTxInValues)

/-- The grouping key of hasDuplicates. The source concatenates
`txIn.txOutId + txIn.txOutId` — the id twice, never the index. -/
def txInGroupKey (txIn : TxIn) : String := txIn.txOutId ++ txIn.txOutId

/-- hasDuplicates: true when some group key occurs more than once. -/
def hasDuplicates (txIns : List TxIn) : Bool :=
  txIns.any (fun txIn => 1 < txIns.countP (fun j => txInGroupKey j == txInGroupKey txIn))

/-- validateCoinbaseTx. The `none` case is the `transaction == null`
check. When `txIns.length !== 1` the source has a bare `return;`
(yielding the falsy `undefined`); callers use the result only in boolean
position, so the embedding returns `false` there. The emptiness of the
signature and of `txOutId` is never tested by the source. -/
def validateCoinbaseTx : Option Transaction → Int → Bool
  | none, _ => false
  | some t, blockIndex =>
    if getTransactionId hash t ≠ t.id then false
    else
      match t.txIns with
      | [txIn] =>
        if txIn.txOutIndex ≠ blockIndex then false
        else
          match t.txOuts with
          | [txOut] => txOut.amount == COINBASE_AMOUNT
          | _ => false
      | _ => false

/-- validateBlockTransactions: coinbase check on `aTransactions[0]`
(`undefined` when the list is empty), the duplicate-input check over all
inputs of the block, then per-transaction validation of the rest. -/
def validateBlockTransactions (aTransactions : List Transaction)
    (aUnspentTxOuts : List UnspentTxOut) (blockIndex : Int) : Except Unit Bool :=
  if ¬ validateCoinbaseTx hash aTransactions.head? blockIndex then .ok false
  else
    let txIns := (aTransactions.map (fun t => t.txIns)).flatten
    if hasDuplicates txIns then .ok false
    else
      match (aTransactions.drop 1).mapM
          (fun t => validateTransaction hash verify t aUnspentTxOuts) with
      | .error e => .error e
      | .ok results => .ok (results.all id)

/-- updateUnspentTxOuts: add the outputs produced by the block and drop
the ones consumed by its inputs. -/
def updateUnspentTxOuts (newTransactions : List Transaction)
    (aUnspentTxOuts : List UnspentTxOut) : List UnspentTxOut :=
  let newUnspentTxOuts :=
    (newTransactions.map (fun t =>
      t.txOuts.enum.map (fun p => UnspentTxOut.mk t.id (p.1 : Int) p.2.address p.2.amount))).flatten
  let consumedTxOuts :=
    ((newTransactions.map (fun t => t.txIns)).flatten).map
      (fun txIn => UnspentTxOut.mk txIn.txOutId txIn.txOutIndex "" 0)
  (aUnspentTxOuts.filter
    (fun uTxO => (findUnspentTxOut uTxO.txOutId uTxO.txOutIndex consumedTxOuts).isNone))
    ++ newUnspentTxOuts

/-- String.prototype.startsWith, modelled at character-list level (the
builtin String.startsWith does not reduce in the kernel). -/
def strStartsWith (s pre : String) : Bool :=
  pre.toList.isPrefixOf s.toList

/-- A hexadecimal digit, as matched by the source regex [a-fA-F0-9]. -/
def isHexDigitChar (c : Char) : Bool :=
  c.isDigit || (('a' ≤ c) && (c ≤ 'f')) || (('A' ≤ c) && (c ≤ 'F'))

/-- isValidAddress: 130 characters, all hex, starting with 04. -/
def isValidAddress (address : String) : Bool :=
  if address.length ≠ 130 then false
  else if ¬ (address.toList.all isHexDigitChar) then false
  else strStartsWith address "04"

/-- isValidTxInStructure checks only dynamic types (null, typeof); on the
typed embedding every TxIn satisfies it. -/
def isValidTxInStructure (_ : TxIn) : Bool := true

/-- isValidTxOutStructure: the dynamic type checks hold by typing; the
address-format check remains. -/
def isValidTxOutStructure (txOut : TxOut) : Bool := isValidAddress txOut.address

/-- isValidTransactionStructure: the id and array typeof checks hold by
typing; the per-element structure checks remain. -/
def isValidTransactionStructure (t : Transaction) : Bool :=
  t.txIns.all isValidTxInStructure && t.txOuts.all isValidTxOutStructure

/-- isValidTransactionsStructure over a block. -/
def isValidTransactionsStructure (transactions : List Transaction) : Bool :=
  transactions.all isValidTransactionStructure

/-- processTransactions: structure check, block-transaction validation
(`null` on failure, modelled as `none`), then the UTXO update.
`Except.error ()` propagates a thrown TypeError. -/
def processTransactions (aTransactions : List Transaction)
    (aUnspentTxOuts : List UnspentTxOut) (blockIndex : Int) :
    Except Unit (Option (List UnspentTxOut)) :=
  if ¬ isValidTransactionsStructure aTransactions then .ok none
  else
    match validateBlockTransactions hash verify aTransactions aUnspentTxOuts blockIndex with
    | .error e => .error e
    | .ok false => .ok none
    | .ok true => .ok (some (updateUnspentTxOuts aTransactions aUnspentTxOuts))

end TransactionEngine

/-! ## Chain engine (blockchain.js) -/

section ChainEngine

variable (hash : String → String) (verify : String → String → String → Bool)

/-- BLOCK_GENERATION_INTERVAL, in seconds. -/
def BLOCK_GENERATION_INTERVAL : Int := 10

/-- DIFFICULTY_ADJUSTMENT_INTERVAL, in blocks. -/
def DIFFICULTY_ADJUSTMENT_INTERVAL : Int := 10

/-- The genesis coinbase transaction constant. -/
def genesisTransaction : Transaction :=
  { id := "e655f6a5f26dc9b4cac6e46f52336428287759cf81ef5ff10854f69d68f43fa3"
    txIns := [{ txOutId := "", txOutIndex := 0, signature := "" }]
    txOuts := [{ address := "04bfcab8722991ae774db48f934ca79cfb7dd991229153b9f732ba5334aafcd8e7266e47076996b55a14bf9913ee3145ce0cfc1372ada8ada74bd287450313534a"
                 amount := 50 }] }

/-- The genesis block constant. -/
def genesisBlock : Block :=
  { index := 0
    previousHash := ""
    timestamp := 1465154705
    data := [genesisTransaction]
    hash := "91a73664bc84c0baa1fc75ea6e4aa6d1d20c5df664c724e3159aefc2e1186627"
    difficulty := 0
    nonce := 0 }

/-- JS default string conversion of the transactions array inside the hash
pre-image: each object renders as [object Object], joined by commas. -/
def jsArrayToString (data : List Transaction) : String :=
  String.intercalate "," (data.map (fun _ => "[object Object]"))

/-- calculateHash over the concatenated block fields. -/
def calculateHash (index : Int) (previousHash : String) (timestamp : Int)
    (data : List Transaction) (difficulty : Int) (nonce : Int) : String :=
  hash (toString index ++ previousHash ++ toString timestamp ++ jsArrayToString data
    ++ toString difficulty ++ toString nonce)

/-- calculateHashForBlock. -/
def calculateHashForBlock (b : Block) : String :=
  calculateHash hash b.index b.previousHash b.timestamp b.data b.difficulty b.nonce

/-- isValidBlockStructure checks only typeof of each field; on the typed
embedding every Block satisfies it. -/
def isValidBlockStructure (_ : Block) : Bool := true

/-- isValidTimestamp: at most one minute behind the predecessor and at most
one minute ahead of the local clock `now`. -/
def isValidTimestamp (now : Int) (newBlock previousBlock : Block) : Bool :=
  (previousBlock.timestamp - 60 < newBlock.timestamp) && (newBlock.timestamp - 60 < now)

/-- Modelled from the spec: util.js (the hexToBinary import) is not under
src/; section 4.1 of the spec fixes the conversion as the hex-nibble
expansion of each character of the hash. Characters outside the hex
alphabet contribute nothing (the spec does not constrain them and no
theorem relies on that case). -/
def hexCharToBinary : Char → String
  | '0' => "0000" | '1' => "0001" | '2' => "0010" | '3' => "0011"
  | '4' => "0100" | '5' => "0101" | '6' => "0110" | '7' => "0111"
  | '8' => "1000" | '9' => "1001"
  | 'a' => "1010" | 'b' => "1011" | 'c' => "1100" | 'd' => "1101"
  | 'e' => "1110" | 'f' => "1111"
  | 'A' => "1010" | 'B' => "1011" | 'C' => "1100" | 'D' => "1101"
  | 'E' => "1110" | 'F' => "1111"
  | _ => ""

/-- Modelled from the spec: the hex-nibble expansion of a whole hash. -/
def hexToBinary (s : String) : String :=
  String.join (s.toList.map hexCharToBinary)

/-- hashMatchesDifficulty: the binary expansion must start with
`difficulty` zero bits. A negative repeat count throws in JS; the model
clamps it to zero, and no theorem relies on a negative difficulty here. -/
def hashMatchesDifficulty (h : String) (difficulty : Int) : Bool :=
  let hashInBinary := hexToBinary h
  let requiredZeros := String.mk (List.replicate difficulty.toNat '0')
  strStartsWith hashInBinary requiredZeros

/-- hashMatchesBlockContent: the recomputed hash equals the stored one. -/
def hashMatchesBlockContent (b : Block) : Bool :=
  calculateHashForBlock hash b == b.hash

/-- hasValidHash. When the difficulty test fails the source only logs
(there is no return false in that branch) and falls through to
`return true`; the embedding reproduces that faithfully. -/
def hasValidHash (b : Block) : Bool :=
  if ¬ hashMatchesBlockContent hash b then false
  else if ¬ hashMatchesDifficulty b.hash b.difficulty then
    true
  else true

/-- isValidNewBlock: structure, index, previous hash, timestamp window and
hash checks, in source order. -/
def isValidNewBlock (now : Int) (newBlock previousBlock : Block) : Bool :=
  if ¬ isValidBlockStructure newBlock then false
  else if previousBlock.index + 1 ≠ newBlock.index then false
  else if previousBlock.hash ≠ newBlock.previousHash then false
  else if ¬ isValidTimestamp now newBlock previousBlock then false
  else if ¬ hasValidHash hash newBlock then false
  else true

/-- Math.pow(2, d) at an integer exponent, as an exact rational. -/
def pow2 (d : Int) : ℚ :=
  if 0 ≤ d then ((2 : ℚ) ^ d.toNat) else 1 / ((2 : ℚ) ^ (-d).toNat)

/-- getAccumulatedDifficulty: map to 2^difficulty and reduce by addition.
The source reduce has no initial value, so an empty chain throws,
modelled as `none`. -/
def getAccumulatedDifficulty (aBlockchain : List Block) : Option ℚ :=
  match aBlockchain.map (fun b => pow2 b.difficulty) with
  | [] => none
  | x :: xs => some (xs.foldl (· + ·) x)

/-- getAdjustedDifficulty. The source reads
`aBlockchain[blockchain.length - DIFFICULTY_ADJUSTMENT_INTERVAL]` — the
index comes from the length of the GLOBAL chain, passed here as
`globalChain`, while the block is taken from the examined chain.
A missing element makes the later property reads throw: `none`. -/
def getAdjustedDifficulty (globalChain : List Block) (latestBlock : Block)
    (aBlockchain : List Block) : Option Int :=
  match jsIndex aBlockchain ((globalChain.length : Int) - DIFFICULTY_ADJUSTMENT_INTERVAL) with
  | none => none
  | some prevAdjustmentBlock =>
    let timeExpected : Int := BLOCK_GENERATION_INTERVAL * DIFFICULTY_ADJUSTMENT_INTERVAL
    let timeTaken : Int := latestBlock.timestamp - prevAdjustmentBlock.timestamp
    if timeTaken < timeExpected / 2 then some (prevAdjustmentBlock.difficulty + 1)
    else if timeTaken > timeExpected * 2 then some (prevAdjustmentBlock.difficulty - 1)
    else some prevAdjustmentBlock.difficulty

/-- getDifficulty. The latest block is read as
`aBlockchain[blockchain.length - 1]`: again the GLOBAL chain length
indexes the examined chain. JS remainder on the index is `Int.tmod`. -/
def getDifficulty (globalChain : List Block) (aBlockchain : List Block) : Option Int :=
  match jsIndex aBlockchain ((globalChain.length : Int) - 1) with
  | none => none
  | some latestBlock =>
    if Int.tmod latestBlock.index DIFFICULTY_ADJUSTMENT_INTERVAL = 0 ∧ latestBlock.index ≠ 0 then
      getAdjustedDifficulty globalChain latestBlock aBlockchain
    else some latestBlock.difficulty

/-- The validation loop of isValidChain from position one on: each block
must extend its predecessor and its transactions must process. -/
def isValidChainLoop (now : Int) (previousBlock : Block) (rest : List Block)
    (aUnspentTxOuts : List UnspentTxOut) : Except Unit (Option (List UnspentTxOut)) :=
  match rest with
  | [] => .ok (some aUnspentTxOuts)
  | b :: bs =>
    if ¬ isValidNewBlock hash now b previousBlock then .ok none
    else
      match processTransactions hash verify b.data aUnspentTxOuts b.index with
      | .error e => .error e
      | .ok none => .ok none
      | .ok (some u) => isValidChainLoop now b bs u

/-- isValidChain: the head must equal the genesis block (the source
compares JSON serializations, which on these records is structural
equality), then every block is validated and processed in order starting
from the empty UTXO set. `ok none` is the null result, `error` a thrown
exception. -/
def isValidChain (now : Int) (blockchainToValidate : List Block) :
    Except Unit (Option (List UnspentTxOut)) :=
  match blockchainToValidate with
  | [] => .ok none
  | b0 :: bs =>
    if b0 ≠ genesisBlock then .ok none
    else
      match processTransactions hash verify b0.data [] b0.index with
      | .error e => .error e
      | .ok none => .ok none
      | .ok (some u0) => isValidChainLoop hash verify now b0 bs u0

end ChainEngine

/-! ## Transaction pool (transactionPool.js) -/

section Pool

variable (hash : String → String) (verify : String → String → String → Bool)

/-- hasTxIn: the pool reconciliation lookup, matching the full pair. -/
def hasTxIn (txIn : TxIn) (unspentTxOuts : List UnspentTxOut) : Bool :=
  ((unspentTxOuts.find? (fun uTxO =>
    uTxO.txOutId == txIn.txOutId && uTxO.txOutIndex == txIn.txOutIndex)).isSome)

/-- updateTransactionPool: drop every transaction having an input whose
referenced UTXO is gone; survivors keep their order. -/
def updateTransactionPool (unspentTxOuts : List UnspentTxOut)
    (pool : List Transaction) : List Transaction :=
  pool.filter (fun t => t.txIns.all (fun txIn => hasTxIn txIn unspentTxOuts))

/-- getTxPoolIns: all inputs across the pool. -/
def getTxPoolIns (aTransactionPool : List Transaction) : List TxIn :=
  (aTransactionPool.map (fun t => t.txIns)).flatten

/-- isValidTxForPool: no input of the candidate may collide with any input
already pooled, collision being equality of both txOutIndex and txOutId. -/
def isValidTxForPool (t : Transaction) (aTransactionPool : List Transaction) : Bool :=
  let txPoolIns := getTxPoolIns aTransactionPool
  t.txIns.all (fun txIn =>
    !(txPoolIns.any (fun txPoolIn =>
      txIn.txOutIndex == txPoolIn.txOutIndex && txIn.txOutId == txPoolIn.txOutId)))

/-- addToTransactionPool. Both rejection paths throw (`Error` in the
source, and `validateTransaction` itself may throw a TypeError); the push
happens only after both checks, so a thrown call leaves the pool as it
was. `ok` carries the post-call pool. -/
def addToTransactionPool (tx : Transaction) (unspentTxOuts : List UnspentTxOut)
    (pool : List Transaction) : Except Unit (List Transaction) :=
  match validateTransaction hash verify tx unspentTxOuts with
  | .error e => .error e
  | .ok false => .error ()
  | .ok true =>
    if ¬ isValidTxForPool tx pool then .error ()
    else .ok (pool ++ [tx])

end Pool

/-! ## Node state and fork choice -/

/-- The mutable node state of blockchain.js: the chain, the authoritative
UTXO set and the transaction pool. -/
structure NodeState where
  chain : List Block
  utxos : List UnspentTxOut
  pool : List Transaction
deriving DecidableEq

/-- How a replaceChain call ended: the chain was replaced, kept, or an
exception escaped (in every non-replaced case no state was mutated). -/
inductive ReplaceOutcome
  | replaced
  | kept
  | threw
deriving DecidableEq

section ForkChoice

variable (hash : String → String) (verify : String → String → String → Bool)

/-- replaceChain: validate the candidate, then compare accumulated
difficulties strictly; on success swap the chain, adopt the recomputed
UTXO set and reconcile the pool against it. -/
def replaceChain (now : Int) (st : NodeState) (newBlocks : List Block) :
    ReplaceOutcome × NodeState :=
  match isValidChain hash verify now newBlocks with
  | .error _ => (.threw, st)
  | .ok none => (.kept, st)
  | .ok (some aUnspentTxOuts) =>
    match getAccumulatedDifficulty newBlocks, getAccumulatedDifficulty st.chain with
    | some workNew, some workCur =>
      if workCur < workNew then
        (.replaced,
          { chain := newBlocks
            utxos := aUnspentTxOuts
            pool := updateTransactionPool aUnspentTxOuts st.pool })
      else (.kept, st)
    | _, _ => (.threw, st)

end ForkChoice

/-! ## Spec-side formulations

These definitions follow the wording of the specification and of the
claims, for comparison against the source-derived definitions above. -/

section SpecSide

variable (hash : String → String) (verify : String → String → String → Bool)

/-- Spec wording of the difficulty computation on the examined chain
alone: latest is the last block of the chain and the retarget
predecessor is chain[latest.index - DIFFICULTY_ADJUSTMENT_INTERVAL]. -/
def getDifficultySpec (c : List Block) : Option Int :=
  match jsIndex c ((c.length : Int) - 1) with
  | none => none
  | some latest =>
    if Int.tmod latest.index DIFFICULTY_ADJUSTMENT_INTERVAL = 0 ∧ latest.index ≠ 0 then
      match jsIndex c (latest.index - DIFFICULTY_ADJUSTMENT_INTERVAL) with
      | none => none
      | some p =>
        let timeExpected : Int := BLOCK_GENERATION_INTERVAL * DIFFICULTY_ADJUSTMENT_INTERVAL
        let timeTaken : Int := latest.timestamp - p.timestamp
        if timeTaken < timeExpected / 2 then some (p.difficulty + 1)
        else if timeTaken > timeExpected * 2 then some (p.difficulty - 1)
        else some p.difficulty
    else some latest.difficulty

/-- What the source getDifficulty actually computes when the examined
chain is as long as the global one (in particular on the global chain
itself): positions are taken relative to the END of the examined chain. -/
def getDifficultySelfSpec (c : List Block) : Option Int :=
  match jsIndex c ((c.length : Int) - 1) with
  | none => none
  | some latestBlock =>
    if Int.tmod latestBlock.index DIFFICULTY_ADJUSTMENT_INTERVAL = 0 ∧ latestBlock.index ≠ 0 then
      match jsIndex c ((c.length : Int) - DIFFICULTY_ADJUSTMENT_INTERVAL) with
      | none => none
      | some prevAdjustmentBlock =>
        let timeExpected : Int := BLOCK_GENERATION_INTERVAL * DIFFICULTY_ADJUSTMENT_INTERVAL
        let timeTaken : Int := latestBlock.timestamp - prevAdjustmentBlock.timestamp
        if timeTaken < timeExpected / 2 then some (prevAdjustmentBlock.difficulty + 1)
        else if timeTaken > timeExpected * 2 then some (prevAdjustmentBlock.difficulty - 1)
        else some prevAdjustmentBlock.difficulty
    else some latestBlock.difficulty

/-- Cumulative work of a chain per the spec: the sum of 2^difficulty. -/
def accumulatedWork (c : List Block) : ℚ :=
  (c.map (fun b => pow2 b.difficulty)).sum

/-- One step of folding processTransactions along a chain: a null
accumulator stays null, otherwise the next block is processed. -/
def processStep (acc : Option (List UnspentTxOut)) (b : Block) :
    Except Unit (Option (List UnspentTxOut)) :=
  match acc with
  | none => pure none
  | some u => processTransactions hash verify b.data u b.index

/-- The fold of processTransactions over a whole chain, starting from the
empty UTXO set — the spec description of the recomputed UTXO set. -/
def foldProcessTransactions (c : List Block) : Except Unit (Option (List UnspentTxOut)) :=
  c.foldlM (processStep hash verify) (some [])

/-- No input of the candidate shares a (txOutId, txOutIndex) pair with any
input of a transaction already pooled — the claimed admission condition. -/
def noPoolConflict (t : Transaction) (pool : List Transaction) : Prop :=
  ∀ txIn ∈ t.txIns, ∀ p ∈ pool, ∀ j ∈ p.txIns,
    ¬(txIn.txOutId = j.txOutId ∧ txIn.txOutIndex = j.txOutIndex)

end SpecSide

/-! ## Claim C1 -/

/-- Constant hash oracle for the C1 counterexample. -/
def hashC1 : String → String := fun _ => "f0"

/-- Predecessor block for C1. -/
def p1 : Block := ⟨0, "", 90, [], "aa", 0, 0⟩

/-- A block whose stored hash matches its content under hashC1 but whose
binary expansion 11110000 has no leading zero, against difficulty 1. -/
def n1 : Block := ⟨1, "aa", 100, [], "f0", 1, 0⟩

/-- C1: refuted on the code. isValidNewBlock accepts block n1 even though
its hash fails the declared difficulty: hasValidHash only logs when
hashMatchesDifficulty is false and still returns true, so the
proof-of-work is not enforced by block validation. -/
theorem c1_difficulty_not_enforced :
    isValidNewBlock hashC1 110 n1 p1 = true ∧
      hashMatchesDifficulty n1.hash n1.difficulty = false ∧
      hasValidHash hashC1 n1 = true := by
  refine ⟨by decide, by decide, by decide⟩

/-! ## Claim C2 -/

/-- Constant hash oracle for the C2 counterexample. -/
def hashC2 : String → String := fun _ => "h"

/-- Signature oracle for C2: a signature verifies exactly under address A. -/
def verifyC2 : String → String → String → Bool := fun address _ _ => address == "A"

/-- UTXO at pair (a, 0), address A. -/
def u2a : UnspentTxOut := ⟨"a", 0, "A", 50⟩

/-- UTXO at pair (a, 1), address B — the one the claim says must carry the
verifying address for an input referencing (a, 1). -/
def u2b : UnspentTxOut := ⟨"a", 1, "B", 50⟩

/-- A transaction spending (a, 1) whose signature verifies only under
address A, the address of the wrong UTXO. -/
def tx2 : Transaction := ⟨"h", [⟨"a", 1, "s"⟩], [⟨"X", 50⟩]⟩

/-- C2: refuted on the code. validateTransaction accepts tx2 although the
UTXO matching its input on both txOutId and txOutIndex is u2b, whose
address B does not verify the signature: validateTxIn matches on txOutId
alone (the source tests it twice) and verifies under the first
txOutId-matching UTXO, u2a. -/
theorem c2_validateTxIn_ignores_index :
    validateTransaction hashC2 verifyC2 tx2 [u2a, u2b] = .ok true ∧
      findUnspentTxOut "a" 1 [u2a, u2b] = some u2b ∧
      verifyC2 u2b.address tx2.id "s" = false := by
  refine ⟨rfl, rfl, rfl⟩

/-! ## Claim C3 -/

/-- Constant hash oracle for the C3 counterexample. -/
def hashC3 : String → String := fun _ => "h"

/-- A coinbase candidate whose single input has a NONempty signature and a
NONempty txOutId. -/
def cb3 : Transaction := ⟨"h", [⟨"zz", 0, "sig"⟩], [⟨"X", 50⟩]⟩

/-- C3 counterexample: validateCoinbaseTx accepts cb3 although its input
signature is "sig" and its txOutId is "zz", refuting the claimed
requirement that both be empty. -/
theorem c3_counterexample :
    validateCoinbaseTx hashC3 (some cb3) 0 = true ∧
      cb3.txIns.map (fun txIn => txIn.signature) = ["sig"] ∧
      cb3.txIns.map (fun txIn => txIn.txOutId) = ["zz"] := by
  refine ⟨rfl, rfl, rfl⟩

/-- C3 amended: validateCoinbaseTx(tx, i) holds exactly when the
recomputed id equals tx.id, tx has exactly one TxIn whose txOutIndex
equals i, and exactly one TxOut whose amount equals COINBASE_AMOUNT; the
emptiness of the signature and of the txOutId is not checked. -/
theorem c3_validateCoinbaseTx_amended (hash : String → String) (t : Transaction) (i : Int) :
    validateCoinbaseTx hash (some t) i = true ↔
      (getTransactionId hash t = t.id ∧
        (∃ txIn, t.txIns = [txIn] ∧ txIn.txOutIndex = i) ∧
        (∃ txOut, t.txOuts = [txOut] ∧ txOut.amount = COINBASE_AMOUNT)) := by
  rcases t with ⟨tid, _ | ⟨a, _ | ⟨b, l⟩⟩, _ | ⟨o, _ | ⟨q, m⟩⟩⟩ <;>
    simp [validateCoinbaseTx, COINBASE_AMOUNT]

/-- C3 witness: the amended characterization applied at the concrete
coinbase candidate cb3. -/
theorem c3_witness :
    validateCoinbaseTx hashC3 (some cb3) 0 = true ↔
      (getTransactionId hashC3 cb3 = cb3.id ∧
        (∃ txIn, cb3.txIns = [txIn] ∧ txIn.txOutIndex = 0) ∧
        (∃ txOut, cb3.txOuts = [txOut] ∧ txOut.amount = COINBASE_AMOUNT)) :=
  c3_validateCoinbaseTx_amended hashC3 cb3 0

/-! ## Claim C4 -/

/-- First block of the C4 examined chain. -/
def c4a : Block := ⟨0, "", 0, [], "", 0, 0⟩

/-- Latest block of the C4 examined chain: index 1, difficulty 5. -/
def c4b : Block := ⟨1, "", 50, [], "", 5, 0⟩

/-- C4 counterexample: on the same examined chain [c4a, c4b], getDifficulty
returns 0 when the global chain has length 1 and 5 when it has length 2,
so the result is NOT computed from the examined chain alone; the value the
claim prescribes, from the chain itself, is 5. -/
theorem c4_counterexample :
    getDifficulty [genesisBlock] [c4a, c4b] = some 0 ∧
      getDifficulty [genesisBlock, genesisBlock] [c4a, c4b] = some 5 ∧
      getDifficultySpec [c4a, c4b] = some 5 := by
  refine ⟨rfl, rfl, rfl⟩

/-- C4 amended: getDifficulty indexes the examined chain with the GLOBAL
chain length — latest is chain[global.length - 1] and the retarget
predecessor chain[global.length - DIFFICULTY_ADJUSTMENT_INTERVAL]. When
the global chain is as long as the examined one (in particular when the
node examines its own chain), this means positions relative to the end of
the examined chain: the block DIFFICULTY_ADJUSTMENT_INTERVAL positions
before the end, not the block at index latest.index minus the interval. -/
theorem c4_getDifficulty_amended (globalChain c : List Block)
    (h : globalChain.length = c.length) :
    getDifficulty globalChain c = getDifficultySelfSpec c := by
  simp only [getDifficulty, getDifficultySelfSpec, getAdjustedDifficulty, h]

/-- C4 witness: the amended statement at a concrete pair of chains of
equal length. -/
theorem c4_witness :
    ([genesisBlock, genesisBlock] : List Block).length = [c4a, c4b].length ∧
      getDifficulty [genesisBlock, genesisBlock] [c4a, c4b] = getDifficultySelfSpec [c4a, c4b] :=
  ⟨by decide, c4_getDifficulty_amended [genesisBlock, genesisBlock] [c4a, c4b] (by decide)⟩

/-! ## Claim C5 -/

/-- Folding addition from an accumulator adds the sum of the list. -/
theorem foldl_add_eq_add_sum (l : List ℚ) (a : ℚ) : l.foldl (· + ·) a = a + l.sum := by
  induction l generalizing a with
  | nil => simp
  | cons x xs ih => simp only [List.foldl_cons, List.sum_cons, ih]; ring

/-- On a nonempty chain the source reduce computes the spec sum of
2^difficulty. -/
theorem getAccumulatedDifficulty_eq (c : List Block) (h : c ≠ []) :
    getAccumulatedDifficulty c = some (accumulatedWork c) := by
  cases c with
  | nil => exact absurd rfl h
  | cons b bs =>
    simp [getAccumulatedDifficulty, accumulatedWork, List.sum_cons, foldl_add_eq_add_sum]

/-- When the validation loop succeeds from a given accumulator, the pure
fold of processTransactions over the remaining blocks yields the same
UTXO set. -/
theorem isValidChainLoop_fold (hash : String → String)
    (verify : String → String → String → Bool) (now : Int) (bs : List Block) :
    ∀ (prev : Block) (u0 u : List UnspentTxOut),
      isValidChainLoop hash verify now prev bs u0 = .ok (some u) →
      bs.foldlM (processStep hash verify) (some u0) = .ok (some u) := by
  induction bs with
  | nil =>
    intro prev u0 u h
    simp only [isValidChainLoop, Except.ok.injEq, Option.some.injEq] at h
    subst h
    rfl
  | cons b bs ih =>
    intro prev u0 u h
    simp only [isValidChainLoop] at h
    split at h
    · simp at h
    · cases hp : processTransactions hash verify b.data u0 b.index with
      | error e => rw [hp] at h; simp at h
      | ok o =>
        cases o with
        | none => rw [hp] at h; simp at h
        | some u2 =>
          rw [hp] at h
          simp only [] at h
          have hrest := ih b u2 u h
          show Except.bind (processStep hash verify (some u0) b)
            (fun a => bs.foldlM (processStep hash verify) a) = Except.ok (some u)
          rw [show processStep hash verify (some u0) b
              = Except.ok (some u2) from hp]
          exact hrest

/-- A chain accepted by isValidChain is nonempty and its returned UTXO set
is exactly the fold of processTransactions over the chain from empty. -/
theorem isValidChain_fold (hash : String → String)
    (verify : String → String → String → Bool) (now : Int) (c : List Block)
    (u : List UnspentTxOut) (h : isValidChain hash verify now c = .ok (some u)) :
    foldProcessTransactions hash verify c = .ok (some u) := by
  cases c with
  | nil => simp [isValidChain] at h
  | cons b0 bs =>
    simp only [isValidChain] at h
    split at h
    · simp at h
    · cases hp : processTransactions hash verify b0.data [] b0.index with
      | error e => rw [hp] at h; simp at h
      | ok o =>
        cases o with
        | none => rw [hp] at h; simp at h
        | some u0 =>
          rw [hp] at h
          simp only [] at h
          have hrest := isValidChainLoop_fold hash verify now bs b0 u0 u h
          show Except.bind (processStep hash verify (some []) b0)
            (fun a => bs.foldlM (processStep hash verify) a) = Except.ok (some u)
          rw [show processStep hash verify (some []) b0
              = Except.ok (some u0) from hp]
          exact hrest

/-- C5: replaceChain replaces exactly when the candidate validates and its
cumulative work (the sum of 2^difficulty) strictly exceeds that of the
current chain; on replacement the post-state chain is the candidate and
the UTXO set is the fold of processTransactions over it; in every other
case (invalid candidates, work ties, thrown validation) the whole node
state is unchanged. -/
theorem c5_replaceChain_correct (hash : String → String)
    (verify : String → String → String → Bool) (now : Int) (st : NodeState)
    (C : List Block) (hne : st.chain ≠ []) :
    ((replaceChain hash verify now st C).1 = ReplaceOutcome.replaced ↔
      ((∃ u, isValidChain hash verify now C = .ok (some u)) ∧
        accumulatedWork st.chain < accumulatedWork C)) ∧
    (∀ u, isValidChain hash verify now C = .ok (some u) →
      (replaceChain hash verify now st C).1 = ReplaceOutcome.replaced →
      ((replaceChain hash verify now st C).2 =
          ⟨C, u, updateTransactionPool u st.pool⟩ ∧
        foldProcessTransactions hash verify C = .ok (some u))) ∧
    ((replaceChain hash verify now st C).1 ≠ ReplaceOutcome.replaced →
      (replaceChain hash verify now st C).2 = st) := by
  cases hvc : isValidChain hash verify now C with
  | error e =>
    refine ⟨?_, ?_, ?_⟩ <;> simp [replaceChain, hvc]
  | ok o =>
    cases o with
    | none =>
      refine ⟨?_, ?_, ?_⟩ <;> simp [replaceChain, hvc]
    | some u =>
      have hCne : C ≠ [] := by
        intro hC
        rw [hC] at hvc
        simp [isValidChain] at hvc
      have haccC := getAccumulatedDifficulty_eq C hCne
      have haccS := getAccumulatedDifficulty_eq st.chain hne
      have hfold := isValidChain_fold hash verify now C u hvc
      by_cases hlt : accumulatedWork st.chain < accumulatedWork C
      · have hrc : replaceChain hash verify now st C =
            (.replaced, ⟨C, u, updateTransactionPool u st.pool⟩) := by
          simp [replaceChain, hvc, haccC, haccS, hlt]
        refine ⟨?_, ?_, ?_⟩
        · rw [hrc]
          exact iff_of_true rfl ⟨⟨u, rfl⟩, hlt⟩
        · intro u' hu' _
          have huu : u = u' := by
            injection hu' with h1
            injection h1
          subst huu
          exact ⟨by rw [hrc], hfold⟩
        · intro hnr
          rw [hrc] at hnr
          simp at hnr
      · have hrc : replaceChain hash verify now st C = (.kept, st) := by
          simp [replaceChain, hvc, haccC, haccS, hlt]
        refine ⟨?_, ?_, ?_⟩
        · rw [hrc]
          refine iff_of_false (by simp) ?_
          rintro ⟨_, hl⟩
          exact hlt hl
        · intro u' hu' hrep
          rw [hrc] at hrep
          simp at hrep
        · intro _
          rw [hrc]

/-- Hash oracle for the C5 witness. -/
def hashW5 : String → String := fun _ => ""

/-- Signature oracle for the C5 witness. -/
def verifyW5 : String → String → String → Bool := fun _ _ _ => false

/-- Node state for the C5 witness: the freshly started node. -/
def st5 : NodeState := ⟨[genesisBlock], [], []⟩

/-- C5 witness: at a concrete state and candidate the theorem applies;
the empty candidate is not adopted and the state is unchanged. -/
theorem c5_witness :
    st5.chain ≠ [] ∧ (replaceChain hashW5 verifyW5 0 st5 []).2 = st5 :=
  ⟨by decide, (c5_replaceChain_correct hashW5 verifyW5 0 st5 [] (by decide)).2.2 (by decide)⟩

/-! ## Claim C6 -/

/-- Constant hash oracle for the C6 counterexample. -/
def hashC6 : String → String := fun _ => "h"

/-- Signature oracle for C6: every signature verifies. -/
def verifyC6 : String → String → String → Bool := fun _ _ _ => true

/-- Coinbase transaction of the C6 block, at block index 1. -/
def cb6 : Transaction := ⟨"h", [⟨"", 1, ""⟩], [⟨"X", 50⟩]⟩

/-- A transaction spending the two DISTINCT outputs (p, 0) and (p, 1). -/
def sp6 : Transaction := ⟨"h", [⟨"p", 0, "s"⟩, ⟨"p", 1, "s"⟩], [⟨"Y", 50⟩]⟩

/-- UTXO set funding sp6: 30 at (p, 0) and 20 at (p, 1). -/
def U6 : List UnspentTxOut := [⟨"p", 0, "A", 30⟩, ⟨"p", 1, "A", 20⟩]

/-- C6: refuted on the code. The block [cb6, sp6] has a valid coinbase,
every non-coinbase transaction validates, and all its input pairs
(txOutId, txOutIndex) are pairwise distinct — yet
validateBlockTransactions rejects it, because hasDuplicates groups by
txOutId concatenated with itself and so flags the two distinct inputs
(p, 0) and (p, 1) as duplicates. -/
theorem c6_duplicate_check_rejects_distinct_pairs :
    validateBlockTransactions hashC6 verifyC6 [cb6, sp6] U6 1 = .ok false ∧
      validateCoinbaseTx hashC6 ([cb6, sp6].head?) 1 = true ∧
      validateTransaction hashC6 verifyC6 sp6 U6 = .ok true ∧
      hasDuplicates (([cb6, sp6].map (fun t => t.txIns)).flatten) = true ∧
      ((([cb6, sp6].map (fun t => t.txIns)).flatten).map
        (fun txIn => (txIn.txOutId, txIn.txOutIndex))).Nodup :=
  ⟨rfl, rfl, rfl, rfl, by decide⟩

/-! ## Claim C7 -/

/-- Block i of the C7 chain: all difficulties 0; the last block arrives
1000 seconds after the retarget predecessor. -/
def mkB7 (i : Nat) : Block := ⟨(i : Int), "", if i = 10 then 1000 else 0, [], "", 0, 0⟩

/-- An eleven-block chain of indices 0..10, every difficulty 0. -/
def c7chain : List Block := (List.range 11).map mkB7

/-- An element produced by jsIndex belongs to the list. -/
theorem jsIndex_mem {l : List α} {i : Int} {a : α} (h : jsIndex l i = some a) : a ∈ l := by
  unfold jsIndex at h
  split at h
  · cases h
  · exact List.get?_mem h

/-- C7 counterexample: on a chain whose difficulties are all 0, slow
blocks make getDifficulty return -1, so the claimed lower bound of 0 is
violated. -/
theorem c7_counterexample :
    getDifficulty c7chain c7chain = some (-1) ∧ ∀ b ∈ c7chain, 0 ≤ b.difficulty :=
  ⟨rfl, by decide⟩

/-- C7 amended: difficulty CAN drop below 0 (retargeting subtracts one
with no clamp), but by at most one step below the examined blocks: for
every chain whose blocks all have difficulty at least 0, any value
returned by getDifficulty or getAdjustedDifficulty is at least -1. -/
theorem c7_difficulty_lower_bound (g c : List Block) (latest : Block)
    (h : ∀ b ∈ c, 0 ≤ b.difficulty) :
    (∀ d, getDifficulty g c = some d → -1 ≤ d) ∧
      (∀ d, getAdjustedDifficulty g latest c = some d → -1 ≤ d) := by
  have hadj : ∀ (lb : Block) (d : Int), getAdjustedDifficulty g lb c = some d → -1 ≤ d := by
    intro lb d hd
    unfold getAdjustedDifficulty at hd
    cases hj : jsIndex c ((g.length : Int) - DIFFICULTY_ADJUSTMENT_INTERVAL) with
    | none => rw [hj] at hd; cases hd
    | some prev =>
      rw [hj] at hd
      have hprev := h prev (jsIndex_mem hj)
      simp only [] at hd
      split_ifs at hd <;> (injection hd with hd; omega)
  refine ⟨?_, fun d => hadj latest d⟩
  intro d hd
  unfold getDifficulty at hd
  cases hj : jsIndex c ((g.length : Int) - 1) with
  | none => rw [hj] at hd; cases hd
  | some lb =>
    rw [hj] at hd
    simp only [] at hd
    split_ifs at hd
    · exact hadj lb d hd
    · injection hd with hd
      have := h lb (jsIndex_mem hj)
      omega

/-- C7 witness: the amended bound applied to the concrete chain where the
code actually returns -1. -/
theorem c7_witness :
    (∀ b ∈ c7chain, 0 ≤ b.difficulty) ∧ -1 ≤ (-1 : Int) :=
  ⟨by decide,
    (c7_difficulty_lower_bound c7chain c7chain genesisBlock (by decide)).1 (-1) (by decide)⟩

/-! ## Claim C8 -/

/-- Constant hash oracle for the C8 counterexample. -/
def hashC8 : String → String := fun _ => "h"

/-- Signature oracle for C8: every signature verifies. -/
def verifyC8 : String → String → String → Bool := fun _ _ _ => true

/-- A structurally valid address (the genesis output key: 130 hex
characters starting 04). -/
def addr8 : String := "04bfcab8722991ae774db48f934ca79cfb7dd991229153b9f732ba5334aafcd8e7266e47076996b55a14bf9913ee3145ce0cfc1372ada8ada74bd287450313534a"

/-- A structurally valid transaction spending (a, 1) while the UTXO set
holds only (a, 0): txOutId matches, the pair does not. -/
def tx8 : Transaction := ⟨"h", [⟨"a", 1, "s"⟩], [⟨addr8, 50⟩]⟩

/-- UTXO set for C8: one output at pair (a, 0). -/
def U8 : List UnspentTxOut := [⟨"a", 0, "X", 50⟩]

set_option maxRecDepth 4000 in
/-- C8: refuted on the code. On the structurally valid tx8,
validateTransaction throws (a TypeError: validateTxIn accepts the input
on the txOutId match alone, then the amount lookup by the full pair finds
nothing and reading .amount of undefined throws) instead of returning a
boolean rejection. -/
theorem c8_validateTransaction_throws :
    isValidTransactionStructure tx8 = true ∧
      validateTransaction hashC8 verifyC8 tx8 U8 = .error () :=
  ⟨by decide, rfl⟩

/-! ## Claim C9 -/

/-- The pool admission check accepts exactly the conflict-free
candidates. -/
theorem isValidTxForPool_iff (t : Transaction) (pool : List Transaction) :
    isValidTxForPool t pool = true ↔ noPoolConflict t pool := by
  unfold isValidTxForPool noPoolConflict getTxPoolIns
  simp only [List.all_eq_true, Bool.not_eq_true', List.any_eq_false, List.mem_flatten,
    List.mem_map, Bool.and_eq_false_iff, beq_eq_false_iff_ne, ne_eq]
  constructor
  · intro hall txIn hin p hp j hj hc
    exact hall txIn hin j ⟨p.txIns, ⟨p, hp, rfl⟩, hj⟩ (by simp [hc.1, hc.2])
  · intro hnc txIn hin j hjmem hpred
    obtain ⟨l, ⟨p, hp, rfl⟩, hj⟩ := hjmem
    simp only [Bool.and_eq_true, beq_iff_eq] at hpred
    exact hnc txIn hin p hp j hj ⟨hpred.2, hpred.1⟩

/-- C9: addToTransactionPool appends the candidate as the last element of
the pool exactly when validateTransaction accepts it and none of its
inputs shares a (txOutId, txOutIndex) pair with an input already pooled;
in every other case (validation false, validation thrown, or a pool
conflict) the call throws — and since the push is the only mutation and
runs after both checks, the pool is unchanged on every throwing path. -/
theorem c9_addToTransactionPool_correct (hash : String → String)
    (verify : String → String → String → Bool) (tx : Transaction)
    (U : List UnspentTxOut) (pool : List Transaction) :
    (addToTransactionPool hash verify tx U pool = .ok (pool ++ [tx]) ↔
      (validateTransaction hash verify tx U = .ok true ∧ noPoolConflict tx pool)) ∧
    (∀ p2, addToTransactionPool hash verify tx U pool = .ok p2 → p2 = pool ++ [tx]) ∧
    (addToTransactionPool hash verify tx U pool = .error () ↔
      ¬(validateTransaction hash verify tx U = .ok true ∧ noPoolConflict tx pool)) := by
  cases hv : validateTransaction hash verify tx U with
  | error e =>
    cases e
    refine ⟨?_, ?_, ?_⟩ <;> simp [addToTransactionPool, hv]
  | ok b =>
    cases b with
    | false =>
      refine ⟨?_, ?_, ?_⟩ <;> simp [addToTransactionPool, hv]
    | true =>
      by_cases hp : isValidTxForPool tx pool
      · have hok : addToTransactionPool hash verify tx U pool = .ok (pool ++ [tx]) := by
          simp [addToTransactionPool, hv, hp]
        refine ⟨?_, ?_, ?_⟩
        · rw [hok]
          exact iff_of_true rfl ⟨rfl, (isValidTxForPool_iff tx pool).mp hp⟩
        · intro p2 h2
          rw [hok] at h2
          injection h2 with h2
          exact h2.symm
        · rw [hok]
          refine iff_of_false (by simp) ?_
          intro hn
          exact hn ⟨rfl, (isValidTxForPool_iff tx pool).mp hp⟩
      · have herr : addToTransactionPool hash verify tx U pool = .error () := by
          simp [addToTransactionPool, hv, hp]
        refine ⟨?_, ?_, ?_⟩
        · rw [herr]
          refine iff_of_false (by simp) ?_
          rintro ⟨_, hconf⟩
          exact hp ((isValidTxForPool_iff tx pool).mpr hconf)
        · intro p2 h2
          rw [herr] at h2
          cases h2
        · rw [herr]
          refine iff_of_true rfl ?_
          rintro ⟨_, hconf⟩
          exact hp ((isValidTxForPool_iff tx pool).mpr hconf)

/-- Constant hash oracle for the C9 witness. -/
def hashW9 : String → String := fun _ => "e"

/-- Signature oracle for the C9 witness. -/
def verifyW9 : String → String → String → Bool := fun _ _ _ => true

/-- A trivially valid transaction (no inputs, no outputs) for the C9
witness. -/
def txW9 : Transaction := ⟨"e", [], []⟩

/-- C9 witness: a concrete admission into the empty pool. -/
theorem c9_witness :
    addToTransactionPool hashW9 verifyW9 txW9 [] [] = .ok ([] ++ [txW9]) :=
  (c9_addToTransactionPool_correct hashW9 verifyW9 txW9 [] []).1.mpr
    ⟨rfl, by simp [noPoolConflict]⟩

/-! ## Claim C10 -/

/-- Constant hash oracle for the C10 counterexample. -/
def hashC10 : String → String := fun _ => "h"

/-- Signature oracle for C10: every signature verifies. -/
def verifyC10 : String → String → String → Bool := fun _ _ _ => true

/-- A transaction referencing the SAME pair (a, 0) twice, with outputs
totalling twice the referenced amount. -/
def tx10 : Transaction := ⟨"h", [⟨"a", 0, "s"⟩, ⟨"a", 0, "s"⟩], [⟨"Y", 100⟩]⟩

/-- UTXO set for C10: a single output of 50 at (a, 0). -/
def U10 : List UnspentTxOut := [⟨"a", 0, "A", 50⟩]

/-- C10 counterexample: validateTransaction accepts tx10, whose two inputs
reference the same (txOutId, txOutIndex), counting the 50-coin output
twice, and addToTransactionPool admits it into the empty pool. -/
theorem c10_counterexample :
    validateTransaction hashC10 verifyC10 tx10 U10 = .ok true ∧
      addToTransactionPool hashC10 verifyC10 tx10 U10 [] = .ok [tx10] ∧
      ¬ (tx10.txIns.map (fun txIn => (txIn.txOutId, txIn.txOutIndex))).Nodup :=
  ⟨rfl, rfl, by decide⟩

/-- C10 amended: validation enforces NO pairwise distinctness on a
transaction own inputs. Whenever a transaction repeats one input twice,
its id recomputes, the signature verifies under the first
txOutId-matching UTXO, the pair lookup resolves, and the outputs total
twice the referenced amount, validateTransaction accepts it and
addToTransactionPool admits it into the empty pool. -/
theorem c10_duplicate_txIns_accepted (hash : String → String)
    (verify : String → String → String → Bool) (t : Transaction)
    (U : List UnspentTxOut) (txIn : TxIn) (u0 u1 : UnspentTxOut)
    (hid : getTransactionId hash t = t.id)
    (hins : t.txIns = [txIn, txIn])
    (hfind : U.find? (fun uTxO =>
      uTxO.txOutId == txIn.txOutId && uTxO.txOutId == txIn.txOutId) = some u0)
    (hsig : verify u0.address t.id txIn.signature = true)
    (hpair : findUnspentTxOut txIn.txOutId txIn.txOutIndex U = some u1)
    (hsum : (t.txOuts.map (fun txOut => txOut.amount)).foldl (· + ·) 0 = 2 * u1.amount) :
    validateTransaction hash verify t U = .ok true ∧
      addToTransactionPool hash verify t U [] = .ok [t] := by
  have hin : validateTxIn verify txIn t U = true := by
    unfold validateTxIn
    rw [hfind]
    exact hsig
  have hamt : getTxInAmount txIn U = some u1.amount := by
    unfold getTxInAmount
    rw [hpair]
    rfl
  have hval : validateTransaction hash verify t U = .ok true := by
    unfold validateTransaction
    rw [if_neg (by simp [hid]), hins]
    simp only [List.all_cons, List.all_nil, hin, Bool.and_self, Bool.and_true, not_true_eq_false,
      if_neg, List.mapM_cons, List.mapM_nil, hamt, Option.pure_def, Option.bind_eq_bind,
      Option.bind_some]
    rw [if_neg (by simp)]
    simp only [Option.some_bind, List.foldl_cons, List.foldl_nil, Except.ok.injEq, beq_iff_eq]
    rw [hsum]
    ring
  refine ⟨hval, ?_⟩
  have hpool : isValidTxForPool t [] = true := by
    simp [isValidTxForPool, getTxPoolIns]
  simp [addToTransactionPool, hval, hpool]

/-- Constant hash oracle for the C10 witness. -/
def hashW10 : String → String := fun _ => "k"

/-- Signature oracle for the C10 witness. -/
def verifyW10 : String → String → String → Bool := fun _ _ _ => true

/-- UTXO for the C10 witness: 7 coins at (b, 2). -/
def u10w : UnspentTxOut := ⟨"b", 2, "C", 7⟩

/-- C10 witness transaction: the input (b, 2) twice, outputs totalling
14. -/
def tx10w : Transaction := ⟨"k", [⟨"b", 2, "t"⟩, ⟨"b", 2, "t"⟩], [⟨"Z", 14⟩]⟩

/-- C10 witness: the amended statement at a concrete
duplicate-referencing transaction. -/
theorem c10_witness :
    validateTransaction hashW10 verifyW10 tx10w [u10w] = .ok true ∧
      addToTransactionPool hashW10 verifyW10 tx10w [u10w] [] = .ok [tx10w] :=
  c10_duplicate_txIns_accepted hashW10 verifyW10 tx10w [u10w] ⟨"b", 2, "t"⟩ u10w u10w
    rfl rfl rfl rfl rfl (by decide)

end PMCrypto
